import Mathlib

/-!
Verification of the awssearch core: the resource-record model
(`instances.py` / `resources.py`) and the multi-key filter engine
(`search.py::SearchAWSResources.filter`).

Python values are shallowly embedded as the inductive `Value`; fallible
Python expressions (subscripting, attribute access on the wrong type)
return `Except PyErr _`.  Matching and lookup follow
`instances.py::Ec2Instance` line by line; the filter engine follows
`search.py::SearchAWSResources.filter`.
-/

/-- Python exception kinds raised by the embedded code. -/
inductive PyErr where
  | keyError
  | typeError
  | attributeError
deriving DecidableEq, Repr

/-- A Python value as it occurs in the boto3-shaped records this tool
handles: strings, lists, string-keyed dicts (as assoc lists, insertion
order kept), and None. -/
inductive Value where
  | vStr : String → Value
  | vList : List Value → Value
  | vDict : List (String × Value) → Value
  | vNull
deriving Repr

/-- Python `s.lower()` for strings (`str.lower`, per-character). -/
def pyLowerStr (s : String) : String :=
  String.mk (s.data.map Char.toLower)

/-- Is `needle` a leading run of `hay`? (helper for substring containment). -/
def charsLead : List Char → List Char → Bool
  | [], _ => true
  | _ :: _, [] => false
  | a :: as, b :: bs => a == b && charsLead as bs

/-- Does `hay` contain `needle` as a contiguous run? -/
def charsHold : List Char → List Char → Bool
  | [], needle => needle.isEmpty
  | hay@(_ :: t), needle => charsLead needle hay || charsHold t needle

/-- Python `needle in hay` for two strings: substring containment. -/
def strContains (hay needle : String) : Bool :=
  charsHold hay.data needle.data

/-- Python truthiness of an embedded value. -/
def truthy : Value → Bool
  | .vStr s => !(s == "")
  | .vList l => !l.isEmpty
  | .vDict d => !d.isEmpty
  | .vNull => false

/-- Python `v[k]` with a string key `k`: dict lookup (KeyError when the
key is missing); subscripting a list, a string or None by a string key
raises TypeError. -/
def subscript : Value → String → Except PyErr Value
  | .vDict d, k =>
    match d.lookup k with
    | some v => .ok v
    | none => .error .keyError
  | .vList _, _ => .error .typeError
  | .vStr _, _ => .error .typeError
  | .vNull, _ => .error .typeError

/-- Python `v.lower()` on an arbitrary value: only strings have `lower`,
anything else raises AttributeError. -/
def pyLower : Value → Except PyErr String
  | .vStr s => .ok (pyLowerStr s)
  | .vList _ => .error .attributeError
  | .vDict _ => .error .attributeError
  | .vNull => .error .attributeError

/-- Python `v == s` for a value and a string literal: strings compare by
content, values of any other type are simply unequal. -/
def valueEqStr (v : Value) (s : String) : Bool :=
  match v with
  | .vStr t => t == s
  | _ => false

/-- Python `v != s` (negation of `valueEqStr`). -/
def valueNe (v : Value) (s : String) : Bool :=
  !(valueEqStr v s)

/-- Python `needle in hay` for a string and an arbitrary value: substring
test on strings, element membership on lists, key membership on dicts;
`in` on None raises TypeError. -/
def pyIn (needle : String) : Value → Except PyErr Bool
  | .vStr s => .ok (strContains s needle)
  | .vList l => .ok (l.any fun v => valueEqStr v needle)
  | .vDict d => .ok (d.any fun kv => kv.1 == needle)
  | .vNull => .error .typeError

/-- Python iteration over a value: a list yields its elements, a string
yields its characters as one-character strings, a dict yields its keys;
iterating None raises TypeError. -/
def iterList : Value → Except PyErr (List Value)
  | .vList l => .ok l
  | .vStr s => .ok (s.data.map fun c => .vStr (String.mk [c]))
  | .vDict d => .ok (d.map fun kv => .vStr kv.1)
  | .vNull => .error .typeError

/-- Embeds `AWSInstance.__getitem__` (instances.py:24-28): raw dict lookup that
resolves a missing field to the empty list instead of raising. -/
def rawGet (inst : List (String × Value)) (item : String) : Value :=
  match inst.lookup item with
  | some v => v
  | none => .vList []

/-- Embeds `Ec2Instance` (instances.py): the raw boto3 record (a dict) plus the
owning account name. -/
structure Ec2Instance where
  instance_ : List (String × Value)
  aws_account : String

/-- Embeds the loop body of `Ec2Instance._get_name`: scan the tag list for the
first tag whose `Key` equals `"Name"` and return its `Value`; falling off
the loop returns None. -/
def getNameAux : List Value → Except PyErr Value
  | [] => .ok .vNull
  | tag :: rest => do
    let k ← subscript tag "Key"
    if valueEqStr k "Name" then subscript tag "Value"
    else getNameAux rest

/-- Embeds `Ec2Instance._get_name` (instances.py:154-157): iterate `self['Tags']`
(the raw `Tags` field, missing fields resolving to the empty list) looking
for the `Name` tag. -/
def getName (e : Ec2Instance) : Except PyErr Value := do
  let l ← iterList (rawGet e.instance_ "Tags")
  getNameAux l

/-- Embeds `Ec2Instance.__getitem__` (instances.py:144-152): `aws_account` and the
derived `Name`/`instance_name` and `instance_placement` fields resolve
before the raw lookup. -/
def getItem (e : Ec2Instance) (item : String) : Except PyErr Value :=
  if item == "aws_account" then .ok (.vStr e.aws_account)
  else if item == "Name" || item == "instance_name" then getName e
  else if item == "instance_placement" then
    subscript (rawGet e.instance_ "Placement") "AvailabilityZone"
  else .ok (rawGet e.instance_ item)

/-!  The per-attribute matchers, `instances.py::Ec2Instance` (159-279).
Each `_match_*` method returns `True` on success and falls off the end
(returning None, i.e. falsy) otherwise; we embed the result as a `Bool`
and the possible exceptions in `Except`. -/

/-- Keep only the distinct elements of a list of strings (the key set of a
Python dict comprehension). -/
def dedupStr : List String → List String
  | [] => []
  | s :: rest => if rest.contains s then dedupStr rest else s :: dedupStr rest

/-- The serialization of one tag inside `_match_tags`'s list
comprehension: `"{}={}".format(tag['Key'].lower(), tag['Value'].lower())`. -/
def tagRepr (tag : Value) : Except PyErr String := do
  let k ← subscript tag "Key"
  let kl ← pyLower k
  let w ← subscript tag "Value"
  let wl ← pyLower w
  .ok (kl ++ "=" ++ wl)

/-- The list comprehension of `_match_tags` (instances.py:168): serialize
every tag whose `Key` is not `'Name'` as lower-cased `key=value`. -/
def serializeTags : List Value → Except PyErr (List String)
  | [] => .ok []
  | tag :: rest => do
    let k ← subscript tag "Key"
    if valueNe k "Name" then
      let s ← tagRepr tag
      let rest' ← serializeTags rest
      .ok (s :: rest')
    else
      serializeTags rest

/-- Embeds `Ec2Instance._match_tags` (instances.py:159-171), as invoked by
`match` with the filter value — a single string.  The dict comprehension
`{mtag: itag for mtag in match_tags for itag in instance_tags if
mtag.lower() in itag}` therefore iterates the *characters* of the value;
its key set is the set of distinct characters contained in some serialized
tag, and the method succeeds when that set is as large as the whole
string. -/
def matchTags (e : Ec2Instance) (match_tags : String) : Except PyErr Bool := do
  let tv ← getItem e "Tags"
  let l ← iterList tv
  let instance_tags ← serializeTags l
  let keys := dedupStr (match_tags.data.map fun c => String.mk [c])
  let matched := keys.filter fun m =>
    instance_tags.any fun itag => strContains itag (pyLowerStr m)
  .ok (matched.length == match_tags.data.length)

/-- Embeds `Ec2Instance._sg_format` (instances.py:140-142). -/
def sgFormat (sg_name sg_id : String) : String :=
  sg_name ++ " - " ++ sg_id

/-- The list comprehension of `_match_securitygroups` (instances.py:182):
`self._sg_format(sg['GroupName'].lower(), sg['GroupId'].lower())`. -/
def serializeSgs : List Value → Except PyErr (List String)
  | [] => .ok []
  | sg :: rest => do
    let n ← subscript sg "GroupName"
    let nl ← pyLower n
    let i ← subscript sg "GroupId"
    let il ← pyLower i
    let rest' ← serializeSgs rest
    .ok (sgFormat nl il :: rest')

/-- Embeds `Ec2Instance._match_securitygroups` (instances.py:173-185), invoked by
`match` with the filter value — again a single string iterated
character-wise by the dict comprehension. -/
def matchSg (e : Ec2Instance) (match_sgs : String) : Except PyErr Bool := do
  let sv ← getItem e "SecurityGroups"
  let l ← iterList sv
  let sg_tags ← serializeSgs l
  let keys := dedupStr (match_sgs.data.map fun c => String.mk [c])
  let matched := keys.filter fun m =>
    sg_tags.any fun isg => strContains isg (pyLowerStr m)
  .ok (matched.length == match_sgs.data.length)

/-- Embeds `Ec2Instance._match_ip` (instances.py:187-200): the value matches when
it occurs in the private or the public IP; a falsy (absent) field is
skipped by the `and` guard before `in` is evaluated. -/
def matchIp (e : Ec2Instance) (match_ip : String) : Except PyErr Bool :=
  getItem e "PublicIpAddress" >>= fun public_ip =>
  getItem e "PrivateIpAddress" >>= fun private_ip =>
  (if truthy private_ip then pyIn match_ip private_ip else .ok false) >>= fun b1 =>
  if b1 then .ok true
  else
    (if truthy public_ip then pyIn match_ip public_ip else .ok false) >>= fun b2 =>
    if b2 then .ok true else .ok false

/-- Python `s == v` for a string on the left and a value on the right. -/
def strEqValue (s : String) (v : Value) : Bool :=
  match v with
  | .vStr t => s == t
  | _ => false

/-- Embeds `Ec2Instance._match_state` (instances.py:202-213): exact equality
`match_state == self['State']['Name']`. -/
def matchState (e : Ec2Instance) (match_state : String) : Except PyErr Bool := do
  let st ← getItem e "State"
  let nm ← subscript st "Name"
  .ok (strEqValue match_state nm)

/-- Embeds `Ec2Instance._match_name` (instances.py:215-226): case-insensitive
substring match of the value against the truthy derived name. -/
def matchName (e : Ec2Instance) (match_name : String) : Except PyErr Bool := do
  let name ← getItem e "Name"
  if truthy name then do
    let nl ← pyLower name
    .ok (strContains nl (pyLowerStr match_name))
  else .ok false

/-- Embeds `Ec2Instance._match_id` (instances.py:228-239): case-insensitive
substring match of the value against the truthy `InstanceId`. -/
def matchId (e : Ec2Instance) (match_instance_id : String) : Except PyErr Bool := do
  let name ← getItem e "InstanceId"
  if truthy name then do
    let nl ← pyLower name
    .ok (strContains nl (pyLowerStr match_instance_id))
  else .ok false

/-- Embeds `Ec2Instance._match_generic` (instances.py:241-256): look the
attribute up (outside the try block), then do a case-insensitive substring
test; `field_value.lower()` on a non-string raises AttributeError, which
is caught and turned into `False`. -/
def matchGeneric (e : Ec2Instance) (value attr : String) : Except PyErr Bool := do
  let fv ← getItem e attr
  match fv with
  | .vStr s => .ok (strContains (pyLowerStr s) (pyLowerStr value))
  | _ => .ok false

/-- The attribute names in `Ec2Instance.match`'s dispatch table
(instances.py:268-275). -/
def dispatchAttrs : List String :=
  ["instance_tags", "instance_ip", "instance_state",
   "instance_name", "instance_id", "instance_sg"]

/-- Embeds `match_methods[attribute](value)` — the dispatch table lookup plus the
call; a missing key surfaces as KeyError. -/
def ec2MatchRaw (e : Ec2Instance) (attr value : String) : Except PyErr Bool :=
  if attr == "instance_tags" then matchTags e value
  else if attr == "instance_ip" then matchIp e value
  else if attr == "instance_state" then matchState e value
  else if attr == "instance_name" then matchName e value
  else if attr == "instance_id" then matchId e value
  else if attr == "instance_sg" then matchSg e value
  else .error .keyError

/-- Embeds `Ec2Instance.match` (instances.py:258-279): `try: return
match_methods[attribute](value) except KeyError: return
self._match_generic(value, attribute)` — any KeyError (from the table
lookup or from inside a matcher) falls back to the generic matcher. -/
def ec2Match (e : Ec2Instance) (attr value : String) : Except PyErr Bool :=
  match ec2MatchRaw e attr value with
  | .error .keyError => matchGeneric e value attr
  | r => r

/-!  The filter engine, `search.py::SearchAWSResources.filter` (151-179).
Records are abstract (`α` with a `BEq` used for Python's identity-based
`instance in results` test) and the per-record matcher is a parameter,
standing for `inst.match(field, value)`. -/

/-- One iteration of the loop over `search_params.items()`: compute the
subset of the original collection matching this key, then either intersect
it with the accumulated results or — when the accumulator is empty, which
the code takes to mean "first iteration" — replace the accumulator. -/
def filterStep {α : Type} [BEq α] (m : α → String → String → Bool)
    (instances : List α) (final : List α) (p : String × String) : List α :=
  let results := instances.filter fun inst => m inst p.1 p.2
  if final.length ≠ 0 then
    final.filter fun inst => results.contains inst
  else
    results

/-- Embeds `SearchAWSResources.filter`: empty criteria return the collection
unchanged; otherwise fold `filterStep` over the key/value pairs starting
from the empty accumulator. -/
def filterRecords {α : Type} [BEq α] (m : α → String → String → Bool)
    (instances : List α) (search_params : List (String × String)) : List α :=
  if search_params.length = 0 then instances
  else search_params.foldl (filterStep m instances) []

/-- CLAIM C3: filtering with an empty criteria mapping returns the
collection unchanged — same records, same membership, same order. -/
theorem filter_empty_criteria_identity {α : Type} [BEq α]
    (m : α → String → String → Bool) (instances : List α) :
    filterRecords m instances [] = instances := rfl

theorem filterStep_sublist {α : Type} [BEq α] (m : α → String → String → Bool)
    (instances final : List α) (p : String × String)
    (h : final.Sublist instances) :
    (filterStep m instances final p).Sublist instances := by
  unfold filterStep
  split
  · exact (List.filter_sublist final).trans h
  · exact List.filter_sublist instances

theorem foldl_filterStep_sublist {α : Type} [BEq α]
    (m : α → String → String → Bool) (instances : List α)
    (ps : List (String × String)) :
    ∀ final : List α, final.Sublist instances →
      (ps.foldl (filterStep m instances) final).Sublist instances := by
  induction ps with
  | nil => intro final h; simpa using h
  | cons p ps ih =>
    intro final h
    simp only [List.foldl_cons]
    exact ih _ (filterStep_sublist m instances final p h)

/-- CLAIM C8: every record in the filter result appears in the original
collection, and surviving records keep their original relative order
(the result is a sublist of the input). -/
theorem filter_result_sublist {α : Type} [BEq α]
    (m : α → String → String → Bool) (instances : List α)
    (ps : List (String × String)) :
    (filterRecords m instances ps).Sublist instances := by
  unfold filterRecords
  split
  · exact List.Sublist.refl instances
  · exact foldl_filterStep_sublist m instances ps [] (List.nil_sublist instances)

/-!  The tag formatter, `instances.py::Ec2Instance._get_tag_printable_value`
(281-294), and concrete inputs used to evaluate the code. -/

/-- Python `str(v)` as used by `"{}".format(...)`.  Only string values
occur in the theorems below; the renderings of the other constructors are
schematic placeholders no theorem depends on. -/
def pyStr : Value → String
  | .vStr s => s
  | .vNull => "None"
  | .vList _ => "<list>"
  | .vDict _ => "<dict>"

/-- Python `"\n".join(items)` / `",".join(items)`. -/
def joinSep (sep : String) : List String → String
  | [] => ""
  | [s] => s
  | s :: rest => s ++ sep ++ joinSep sep rest

/-- The list comprehension of `_get_tag_printable_value`
(instances.py:289-292): `"{}={}".format(tags['Key'], tags['Value']) for
tags in tag_data if tags['Key'] != 'None'` — note the filter compares the
key against the string `'None'`, not `'Name'`. -/
def tagItems : List Value → Except PyErr (List String)
  | [] => .ok []
  | tag :: rest => do
    let k ← subscript tag "Key"
    if valueNe k "None" then
      let k' ← subscript tag "Key"
      let w ← subscript tag "Value"
      let rest' ← tagItems rest
      .ok ((pyStr k' ++ "=" ++ pyStr w) :: rest')
    else
      tagItems rest

/-- Embeds `Ec2Instance._get_tag_printable_value` (instances.py:281-294): both
entries of the `print_formats` dict are built eagerly from the same
comprehension, then the requested format is selected (a format other than
`table`/`json` would raise KeyError). -/
def getTagPrintableValue (tag_data : List Value) (print_format : String) :
    Except PyErr String := do
  let items ← tagItems tag_data
  let itemsJson ← tagItems tag_data
  if print_format == "table" then .ok (joinSep "\n" items)
  else if print_format == "json" then .ok (joinSep "," itemsJson)
  else .error .keyError

/-- Strip the `Except` layer the way the filter engine observes `match`:
a `True` result is truthy, `None`/`False` falsy.  At every input used in
the theorems below the matcher returns `.ok`, so no exception is being
silenced. -/
def exceptToBool : Except PyErr Bool → Bool
  | .ok b => b
  | .error _ => false

/-- A concrete EC2 record: name tag `web-1`, instance id `i-abc123`. -/
def rec1 : Ec2Instance :=
  ⟨[("Tags", .vList [.vDict [("Key", .vStr "Name"), ("Value", .vStr "web-1")]]),
    ("InstanceId", .vStr "i-abc123")], "prod"⟩

/-- The record collection for the filter-engine evaluations: records are
carried by index (Python's `instance in results` compares by object
identity, which indices model exactly); `tableEx` maps an index to its
record. -/
def recsEx : List Nat := [0]

def tableEx : Nat → Ec2Instance := fun _ => rec1

/-- Embeds `inst.match(field, value)` for the indexed collection. -/
def mEx (i : Nat) (a v : String) : Bool :=
  exceptToBool (ec2Match (tableEx i) a v)

/-- Criteria key matching zero records of `recsEx`. -/
def specA : String × String := ("instance_name", "zzz")

/-- Criteria key matching record 0 of `recsEx`. -/
def specB : String × String := ("instance_id", "abc")

/-- CLAIM C1 (counter-evaluation): the multi-key filter is not
order-independent and not equivalent to sequential narrowing.  With the
zero-match key first the engine returns the whole collection's match for
the second key; with the keys swapped, or filtering sequentially, it
returns the empty collection. -/
theorem filter_not_commutative_eval :
    filterRecords mEx recsEx [specA, specB] = [0] ∧
    filterRecords mEx recsEx [specB, specA] = [] ∧
    filterRecords mEx (filterRecords mEx recsEx [specA]) [specB] = [] :=
  ⟨rfl, rfl, rfl⟩

/-- CLAIM C2 (counter-evaluation): the first criteria key matches zero
records, yet the two-key filter result is not empty — the empty
intermediate result is mistaken for "first iteration" and overwritten. -/
theorem filter_no_short_circuit_eval :
    recsEx.filter (fun i => mEx i specA.1 specA.2) = [] ∧
    filterRecords mEx recsEx [specA, specB] = [0] :=
  ⟨rfl, rfl⟩

/-!  CLAIM C5: the claimed comma-split AND-of-subexpressions tag
semantics, against what `_match_tags` actually computes. -/

/-- Split a character list on commas (Python `value.split(',')`). -/
def splitCommas : List Char → List Char → List String
  | [], acc => [String.mk acc.reverse]
  | c :: rest, acc =>
    if c == ',' then String.mk acc.reverse :: splitCommas rest []
    else splitCommas rest (c :: acc)

/-- The claim's tag-match semantics, stated from the spec's words: split
the filter value on commas and require every sub-expression, lower-cased,
to be a substring of the `key=value` serialization of at least one
non-Name tag of the record. -/
def tagMatchClaim (e : Ec2Instance) (value : String) : Bool :=
  match (do
      let l ← iterList (rawGet e.instance_ "Tags")
      serializeTags l : Except PyErr (List String)) with
  | .ok tags =>
    (splitCommas value.data []).all fun sub =>
      tags.any fun t => strContains t (pyLowerStr sub)
  | .error _ => false

/-- A record carrying the two tags of the claim's example. -/
def recTagPair : Ec2Instance :=
  ⟨[("Tags", .vList
      [.vDict [("Key", .vStr "env"), ("Value", .vStr "prod")],
       .vDict [("Key", .vStr "team"), ("Value", .vStr "core")]])], "prod"⟩

/-- CLAIM C5 (counter-evaluation): on a record tagged `env=prod` and
`team=core`, the claimed comma-split semantics accept the filter value
`"env=prod,team=core"`, but the code rejects it — `_match_tags` never
splits on commas; it iterates the characters of the value and compares
the count of distinct matching characters with the full length of the
string. -/
theorem tag_filter_no_comma_split_eval :
    tagMatchClaim recTagPair "env=prod,team=core" = true ∧
    ec2Match recTagPair "instance_tags" "env=prod,team=core" = .ok false :=
  ⟨rfl, rfl⟩

/-- The claim's example tag collection:
`[{"Key":"Name","Value":"x"},{"Key":"env","Value":"prod"}]`. -/
def exTags : List Value :=
  [.vDict [("Key", .vStr "Name"), ("Value", .vStr "x")],
   .vDict [("Key", .vStr "env"), ("Value", .vStr "prod")]]

/-- CLAIM C7 (counter-evaluation): on the claim's example collection the
formatter renders the `Name` tag in both modes (its filter compares tag
keys against the string `'None'`, not `'Name'`) and sorts nothing; table
and JSON modes do agree on content, differing only in the join
separator. -/
theorem tag_rendering_includes_name_eval :
    getTagPrintableValue exTags "table" = .ok ("Name=x" ++ "\n" ++ "env=prod") ∧
    getTagPrintableValue exTags "json" = .ok "Name=x,env=prod" :=
  ⟨rfl, rfl⟩

/-!  Reduction helpers: `Except` bind on determined scrutinees, literal
field names through `__getitem__`, and literal attributes through the
dispatch table. -/

@[simp] theorem okBind {α β : Type} (a : α) (f : α → Except PyErr β) :
    (Except.ok a >>= f) = f a := rfl

@[simp] theorem errBind {α β : Type} (err : PyErr) (f : α → Except PyErr β) :
    ((Except.error err : Except PyErr α) >>= f) = .error err := rfl

theorem getItem_name_eq (e : Ec2Instance) : getItem e "Name" = getName e := rfl

theorem getItem_state_eq (e : Ec2Instance) :
    getItem e "State" = .ok (rawGet e.instance_ "State") := rfl

theorem ec2Match_of_raw_ok {e : Ec2Instance} {a v : String} {b : Bool}
    (h : ec2MatchRaw e a v = .ok b) : ec2Match e a v = .ok b := by
  unfold ec2Match; rw [h]

theorem ec2MatchRaw_name_eq (e : Ec2Instance) (v : String) :
    ec2MatchRaw e "instance_name" v = matchName e v := rfl

theorem ec2MatchRaw_state_eq (e : Ec2Instance) (v : String) :
    ec2MatchRaw e "instance_state" v = matchState e v := rfl

theorem str_data_ne_nil {v : String} (hv : v ≠ "") : v.data ≠ [] := by
  intro h0
  exact hv (congrArg String.mk h0)

/-- CLAIM C9: matching on the `instance_name` attribute succeeds exactly
when the value, compared case-insensitively, is a substring of the derived
name (the value of the first tag with key `Name`); when the derived name
is absent the match is false. -/
theorem name_match_substring (e : Ec2Instance) (v : String) (hv : v ≠ "") :
    (∀ s, getName e = .ok (.vStr s) →
      ec2Match e "instance_name" v = .ok (strContains (pyLowerStr s) (pyLowerStr v))) ∧
    (getName e = .ok .vNull → ec2Match e "instance_name" v = .ok false) := by
  constructor
  · intro s hs
    apply ec2Match_of_raw_ok
    rw [ec2MatchRaw_name_eq]
    unfold matchName
    rw [getItem_name_eq, hs, okBind]
    by_cases h0 : s = ""
    · subst h0
      have hne : (pyLowerStr v).data ≠ [] := by
        intro h
        exact str_data_ne_nil hv (List.map_eq_nil_iff.mp h)
      simp only [truthy, beq_self_eq_true, Bool.not_true, Bool.false_eq_true,
        if_false]
      unfold strContains pyLowerStr
      cases hc : (String.mk (v.data.map Char.toLower)).data with
      | nil => exact absurd (by unfold pyLowerStr at hne; exact hc) hne
      | cons c cs => rfl
    · have ht : truthy (.vStr s) = true := by
        simp [truthy, h0]
      rw [ht]
      simp only [if_true, pyLower, okBind]
  · intro hs
    apply ec2Match_of_raw_ok
    rw [ec2MatchRaw_name_eq]
    unfold matchName
    rw [getItem_name_eq, hs, okBind]
    rfl

/-- A concrete EC2 record named `web-server-01`. -/
def recWeb : Ec2Instance :=
  ⟨[("Tags", .vList [.vDict [("Key", .vStr "Name"),
                             ("Value", .vStr "web-server-01")]])], "prod"⟩

theorem name_match_substring_witness :
    ec2Match recWeb "instance_name" "WEB" = .ok true := by
  rw [(name_match_substring recWeb "WEB" (by decide)).1 "web-server-01" rfl]
  rfl

/-- CLAIM C10: matching on the `instance_state` attribute with value `v`
against a record whose running-state name is `s` succeeds exactly when
`v` equals `s` as a case-sensitive string comparison. -/
theorem state_match_exact (e : Ec2Instance) (v s : String)
    (d : List (String × Value))
    (h1 : e.instance_.lookup "State" = some (.vDict d))
    (h2 : d.lookup "Name" = some (.vStr s)) :
    ec2Match e "instance_state" v = .ok (v == s) := by
  apply ec2Match_of_raw_ok
  rw [ec2MatchRaw_state_eq]
  have hraw : rawGet e.instance_ "State" = .vDict d := by
    unfold rawGet; rw [h1]
  have hsub : subscript (.vDict d) "Name" = .ok (.vStr s) := by
    simp only [subscript, h2]
  unfold matchState
  rw [getItem_state_eq, okBind, hraw, hsub, okBind]
  rfl

/-- A concrete EC2 record in the `running` state. -/
def recRun : Ec2Instance :=
  ⟨[("State", .vDict [("Name", .vStr "running")])], "prod"⟩

theorem state_match_exact_witness :
    ec2Match recRun "instance_state" "running" = .ok true ∧
    ec2Match recRun "instance_state" "Running" = .ok false := by
  constructor
  · rw [state_match_exact recRun "running" "running" _ rfl rfl]
    rfl
  · rw [state_match_exact recRun "Running" "running" _ rfl rfl]
    rfl

/-!  Well-formedness of the boto3-shaped raw record: fields may be absent,
but when present they carry the provider's documented shape (tag and
security-group collections are lists of string-keyed dicts, the instance
id is a string).  This is the data-model invariant under which the
matcher's totality is assessed. -/

/-- A tag dict has string `Key` and `Value` entries. -/
def TagWF (t : Value) : Prop :=
  (∃ k, subscript t "Key" = .ok (.vStr k)) ∧
  ∃ w, subscript t "Value" = .ok (.vStr w)

/-- A security-group dict has string `GroupName` and `GroupId` entries. -/
def SgWF (g : Value) : Prop :=
  (∃ n, subscript g "GroupName" = .ok (.vStr n)) ∧
  ∃ i, subscript g "GroupId" = .ok (.vStr i)

/-- When `field` is present on the record it is a list whose elements
satisfy `P`. -/
def ListFieldWF (e : Ec2Instance) (field : String) (P : Value → Prop) : Prop :=
  ∀ v, e.instance_.lookup field = some v → ∃ l, v = .vList l ∧ ∀ x ∈ l, P x

/-- When `field` is present on the record it is a string. -/
def StrFieldWF (e : Ec2Instance) (field : String) : Prop :=
  ∀ v, e.instance_.lookup field = some v → ∃ s, v = .vStr s

/-- The record shapes the EC2 matchers rely on. -/
structure WFEc2 (e : Ec2Instance) : Prop where
  tags : ListFieldWF e "Tags" TagWF
  sgs : ListFieldWF e "SecurityGroups" SgWF
  iid : StrFieldWF e "InstanceId"

theorem beqNeFalse {a b : String} (h : a ≠ b) : ¬((a == b) = true) :=
  fun hc => h (eq_of_beq hc)

theorem rawGet_listField {e : Ec2Instance} {field : String} {P : Value → Prop}
    (h : ListFieldWF e field P) :
    ∃ l, rawGet e.instance_ field = .vList l ∧ ∀ x ∈ l, P x := by
  unfold rawGet
  cases hl : e.instance_.lookup field with
  | none =>
    simp only [hl]
    exact ⟨[], rfl, fun x hx => absurd hx (List.not_mem_nil x)⟩
  | some v =>
    simp only [hl]
    obtain ⟨l, hv, hP⟩ := h v hl
    exact ⟨l, by rw [hv], hP⟩

theorem rawGet_strField {e : Ec2Instance} {field : String}
    (h : StrFieldWF e field) :
    rawGet e.instance_ field = .vList [] ∨
    ∃ s, rawGet e.instance_ field = .vStr s := by
  unfold rawGet
  cases hl : e.instance_.lookup field with
  | none => left; simp only [hl]
  | some v =>
    right
    obtain ⟨s, rfl⟩ := h v hl
    exact ⟨s, by simp only [hl]⟩

theorem serializeTags_ok :
    ∀ l : List Value, (∀ t ∈ l, TagWF t) → ∃ ss, serializeTags l = .ok ss := by
  intro l
  induction l with
  | nil => intro _; exact ⟨[], rfl⟩
  | cons tag rest ih =>
    intro h
    obtain ⟨⟨k, hk⟩, ⟨w, hw⟩⟩ := h tag (List.mem_cons_self tag rest)
    obtain ⟨ss, hss⟩ := ih fun t ht => h t (List.mem_cons_of_mem _ ht)
    unfold serializeTags
    rw [hk, okBind]
    by_cases hkn : valueNe (.vStr k) "Name" = true
    · rw [if_pos hkn]
      have htr : tagRepr tag = .ok (pyLowerStr k ++ "=" ++ pyLowerStr w) := by
        unfold tagRepr
        rw [hk]
        simp only [okBind, pyLower]
        rw [hw]
        simp only [okBind, pyLower]
      rw [htr, okBind, hss, okBind]
      exact ⟨_, rfl⟩
    · rw [if_neg hkn]
      exact ⟨ss, hss⟩

theorem serializeSgs_ok :
    ∀ l : List Value, (∀ g ∈ l, SgWF g) → ∃ ss, serializeSgs l = .ok ss := by
  intro l
  induction l with
  | nil => intro _; exact ⟨[], rfl⟩
  | cons sg rest ih =>
    intro h
    obtain ⟨⟨n, hn⟩, ⟨i, hi⟩⟩ := h sg (List.mem_cons_self sg rest)
    obtain ⟨ss, hss⟩ := ih fun g hg => h g (List.mem_cons_of_mem _ hg)
    unfold serializeSgs
    rw [hn]
    simp only [okBind, pyLower]
    rw [hi]
    simp only [okBind, pyLower]
    rw [hss, okBind]
    exact ⟨_, rfl⟩

theorem getNameAux_ok :
    ∀ l : List Value, (∀ t ∈ l, TagWF t) →
      ∃ r, getNameAux l = .ok r ∧ (r = .vNull ∨ ∃ s, r = .vStr s) := by
  intro l
  induction l with
  | nil => intro _; exact ⟨.vNull, rfl, .inl rfl⟩
  | cons tag rest ih =>
    intro h
    obtain ⟨⟨k, hk⟩, ⟨w, hw⟩⟩ := h tag (List.mem_cons_self tag rest)
    obtain ⟨r, hr, hcase⟩ := ih fun t ht => h t (List.mem_cons_of_mem _ ht)
    unfold getNameAux
    rw [hk, okBind]
    by_cases hkn : valueEqStr (.vStr k) "Name" = true
    · rw [if_pos hkn]
      exact ⟨.vStr w, hw, .inr ⟨w, rfl⟩⟩
    · rw [if_neg hkn]
      exact ⟨r, hr, hcase⟩

theorem getName_ok {e : Ec2Instance} (h : ListFieldWF e "Tags" TagWF) :
    ∃ r, getName e = .ok r ∧ (r = .vNull ∨ ∃ s, r = .vStr s) := by
  obtain ⟨l, hl, hP⟩ := rawGet_listField h
  obtain ⟨r, hr, hcase⟩ := getNameAux_ok l hP
  refine ⟨r, ?_, hcase⟩
  unfold getName
  rw [hl]
  simp only [iterList, okBind]
  exact hr

theorem getItem_ok {e : Ec2Instance} (a : String)
    (ht : ListFieldWF e "Tags" TagWF) (hp : a ≠ "instance_placement") :
    ∃ fv, getItem e a = .ok fv ∧
      (a ≠ "aws_account" → a ≠ "Name" → a ≠ "instance_name" →
        fv = rawGet e.instance_ a) := by
  unfold getItem
  by_cases h1 : (a == "aws_account") = true
  · rw [if_pos h1]
    exact ⟨_, rfl, fun ha _ _ => absurd (eq_of_beq h1) ha⟩
  · rw [if_neg h1]
    by_cases h2 : (a == "Name" || a == "instance_name") = true
    · rw [if_pos h2]
      obtain ⟨r, hr, _⟩ := getName_ok ht
      refine ⟨r, hr, fun _ hb hc => ?_⟩
      rcases Bool.or_eq_true_iff.mp h2 with hN | hn
      · exact absurd (eq_of_beq hN) hb
      · exact absurd (eq_of_beq hn) hc
    · rw [if_neg h2, if_neg (beqNeFalse hp)]
      exact ⟨_, rfl, fun _ _ _ => rfl⟩

theorem ec2MatchRaw_tags_eq (e : Ec2Instance) (v : String) :
    ec2MatchRaw e "instance_tags" v = matchTags e v := rfl

theorem ec2MatchRaw_ip_eq (e : Ec2Instance) (v : String) :
    ec2MatchRaw e "instance_ip" v = matchIp e v := rfl

theorem ec2MatchRaw_id_eq (e : Ec2Instance) (v : String) :
    ec2MatchRaw e "instance_id" v = matchId e v := rfl

theorem ec2MatchRaw_sg_eq (e : Ec2Instance) (v : String) :
    ec2MatchRaw e "instance_sg" v = matchSg e v := rfl

theorem matchTags_ok {e : Ec2Instance} (v : String)
    (ht : ListFieldWF e "Tags" TagWF) : ∃ b, matchTags e v = .ok b := by
  obtain ⟨l, hl, hP⟩ := rawGet_listField ht
  obtain ⟨ss, hss⟩ := serializeTags_ok l hP
  unfold matchTags
  rw [show getItem e "Tags" = .ok (rawGet e.instance_ "Tags") from rfl,
    okBind, hl]
  simp only [iterList, okBind]
  rw [hss, okBind]
  exact ⟨_, rfl⟩

theorem matchSg_ok {e : Ec2Instance} (v : String)
    (hs : ListFieldWF e "SecurityGroups" SgWF) : ∃ b, matchSg e v = .ok b := by
  obtain ⟨l, hl, hP⟩ := rawGet_listField hs
  obtain ⟨ss, hss⟩ := serializeSgs_ok l hP
  unfold matchSg
  rw [show getItem e "SecurityGroups" =
      .ok (rawGet e.instance_ "SecurityGroups") from rfl, okBind, hl]
  simp only [iterList, okBind]
  rw [hss, okBind]
  exact ⟨_, rfl⟩

theorem guardIn_ok (v : String) (w : Value) :
    ∃ c, (if truthy w then pyIn v w else .ok false) = .ok c := by
  cases w with
  | vNull => exact ⟨false, by simp [truthy]⟩
  | vStr s =>
    by_cases hs : truthy (.vStr s) = true
    · rw [if_pos hs]; exact ⟨_, rfl⟩
    · rw [if_neg hs]; exact ⟨false, rfl⟩
  | vList l =>
    by_cases hs : truthy (.vList l) = true
    · rw [if_pos hs]; exact ⟨_, rfl⟩
    · rw [if_neg hs]; exact ⟨false, rfl⟩
  | vDict d =>
    by_cases hs : truthy (.vDict d) = true
    · rw [if_pos hs]; exact ⟨_, rfl⟩
    · rw [if_neg hs]; exact ⟨false, rfl⟩

theorem matchIp_ok (e : Ec2Instance) (v : String) : ∃ b, matchIp e v = .ok b := by
  unfold matchIp
  rw [show getItem e "PublicIpAddress" =
      .ok (rawGet e.instance_ "PublicIpAddress") from rfl, okBind,
    show getItem e "PrivateIpAddress" =
      .ok (rawGet e.instance_ "PrivateIpAddress") from rfl, okBind]
  obtain ⟨c1, hc1⟩ := guardIn_ok v (rawGet e.instance_ "PrivateIpAddress")
  rw [hc1, okBind]
  cases c1 with
  | true => exact ⟨true, rfl⟩
  | false =>
    simp only [Bool.false_eq_true, if_false]
    obtain ⟨c2, hc2⟩ := guardIn_ok v (rawGet e.instance_ "PublicIpAddress")
    rw [hc2, okBind]
    cases c2 with
    | true => exact ⟨true, rfl⟩
    | false => exact ⟨false, by simp⟩

theorem matchName_ok {e : Ec2Instance} (v : String)
    (ht : ListFieldWF e "Tags" TagWF) : ∃ b, matchName e v = .ok b := by
  obtain ⟨r, hr, hcase⟩ := getName_ok ht
  unfold matchName
  rw [getItem_name_eq, hr, okBind]
  rcases hcase with h | ⟨s, rfl⟩
  · subst h
    exact ⟨false, by simp [truthy]⟩
  · by_cases hs : truthy (.vStr s) = true
    · rw [if_pos hs]
      simp only [pyLower, okBind]
      exact ⟨_, rfl⟩
    · rw [if_neg hs]
      exact ⟨false, rfl⟩

theorem matchId_ok {e : Ec2Instance} (v : String)
    (hi : StrFieldWF e "InstanceId") : ∃ b, matchId e v = .ok b := by
  unfold matchId
  rw [show getItem e "InstanceId" =
      .ok (rawGet e.instance_ "InstanceId") from rfl, okBind]
  rcases rawGet_strField hi with h | ⟨s, h⟩ <;> rw [h]
  · exact ⟨false, by simp [truthy]⟩
  · by_cases hs : truthy (.vStr s) = true
    · rw [if_pos hs]
      simp only [pyLower, okBind]
      exact ⟨_, rfl⟩
    · rw [if_neg hs]
      exact ⟨false, rfl⟩

theorem matchGeneric_ok {e : Ec2Instance} (v a : String)
    (ht : ListFieldWF e "Tags" TagWF) (hp : a ≠ "instance_placement") :
    ∃ b, matchGeneric e v a = .ok b := by
  obtain ⟨fv, hfv, _⟩ := getItem_ok a ht hp
  unfold matchGeneric
  rw [hfv, okBind]
  cases fv with
  | vStr s => exact ⟨_, rfl⟩
  | vList l => exact ⟨false, rfl⟩
  | vDict d => exact ⟨false, rfl⟩
  | vNull => exact ⟨false, rfl⟩

/-- A record with no raw fields at all. -/
def recEmpty : Ec2Instance := ⟨[], "acct"⟩

/-- CLAIM C4 (counterexample): matching the `instance_state` attribute
against a record whose `State` field is absent raises TypeError
(`self['State']` resolves to the empty list and `[]['Name']` is a type
error), so `match` is not total over all attributes as claimed. -/
theorem match_state_raises_counterexample :
    ec2Match recEmpty "instance_state" "running" = .error .typeError := rfl

/-- CLAIM C4 (amended): on a well-formed record, for every attribute other
than `instance_state` and `instance_placement` and every match value,
`match` returns a boolean and never raises; and an attribute not in the
dispatch table falls back to the generic substring test, which returns
false whenever the looked-up field value is not a string (absent fields
resolve to the non-string empty list). -/
theorem match_total_amended (e : Ec2Instance) (a v : String) (hwf : WFEc2 e)
    (hstate : a ≠ "instance_state") (hplace : a ≠ "instance_placement") :
    (∃ b, ec2Match e a v = .ok b) ∧
    (a ∉ dispatchAttrs → ∀ fv, getItem e a = .ok fv →
      (∀ s, fv ≠ .vStr s) → ec2Match e a v = .ok false) := by
  constructor
  · by_cases h1 : (a == "instance_tags") = true
    · obtain rfl := eq_of_beq h1
      obtain ⟨b, hb⟩ := matchTags_ok v hwf.tags
      exact ⟨b, ec2Match_of_raw_ok (by rw [ec2MatchRaw_tags_eq]; exact hb)⟩
    · by_cases h2 : (a == "instance_ip") = true
      · obtain rfl := eq_of_beq h2
        obtain ⟨b, hb⟩ := matchIp_ok e v
        exact ⟨b, ec2Match_of_raw_ok (by rw [ec2MatchRaw_ip_eq]; exact hb)⟩
      · by_cases h3 : (a == "instance_state") = true
        · exact absurd (eq_of_beq h3) hstate
        · by_cases h4 : (a == "instance_name") = true
          · obtain rfl := eq_of_beq h4
            obtain ⟨b, hb⟩ := matchName_ok v hwf.tags
            exact ⟨b, ec2Match_of_raw_ok (by rw [ec2MatchRaw_name_eq]; exact hb)⟩
          · by_cases h5 : (a == "instance_id") = true
            · obtain rfl := eq_of_beq h5
              obtain ⟨b, hb⟩ := matchId_ok v hwf.iid
              exact ⟨b, ec2Match_of_raw_ok (by rw [ec2MatchRaw_id_eq]; exact hb)⟩
            · by_cases h6 : (a == "instance_sg") = true
              · obtain rfl := eq_of_beq h6
                obtain ⟨b, hb⟩ := matchSg_ok v hwf.sgs
                exact ⟨b, ec2Match_of_raw_ok (by rw [ec2MatchRaw_sg_eq]; exact hb)⟩
              · have hraw : ec2MatchRaw e a v = .error .keyError := by
                  unfold ec2MatchRaw
                  rw [if_neg h1, if_neg h2, if_neg h3, if_neg h4, if_neg h5,
                    if_neg h6]
                have hgen : ec2Match e a v = matchGeneric e v a := by
                  unfold ec2Match; rw [hraw]
                rw [hgen]
                exact matchGeneric_ok v a hwf.tags hplace
  · intro hnd fv hfv hnotstr
    have h1 : ¬((a == "instance_tags") = true) :=
      beqNeFalse fun hc => hnd (by rw [hc]; simp [dispatchAttrs])
    have h2 : ¬((a == "instance_ip") = true) :=
      beqNeFalse fun hc => hnd (by rw [hc]; simp [dispatchAttrs])
    have h3 : ¬((a == "instance_state") = true) :=
      beqNeFalse fun hc => hnd (by rw [hc]; simp [dispatchAttrs])
    have h4 : ¬((a == "instance_name") = true) :=
      beqNeFalse fun hc => hnd (by rw [hc]; simp [dispatchAttrs])
    have h5 : ¬((a == "instance_id") = true) :=
      beqNeFalse fun hc => hnd (by rw [hc]; simp [dispatchAttrs])
    have h6 : ¬((a == "instance_sg") = true) :=
      beqNeFalse fun hc => hnd (by rw [hc]; simp [dispatchAttrs])
    have hraw : ec2MatchRaw e a v = .error .keyError := by
      unfold ec2MatchRaw
      rw [if_neg h1, if_neg h2, if_neg h3, if_neg h4, if_neg h5, if_neg h6]
    have hgen : ec2Match e a v = matchGeneric e v a := by
      unfold ec2Match; rw [hraw]
    rw [hgen]
    unfold matchGeneric
    rw [hfv, okBind]
    cases fv with
    | vStr s => exact absurd rfl (hnotstr s)
    | vList l => rfl
    | vDict d => rfl
    | vNull => rfl

theorem match_total_amended_witness :
    ec2Match recEmpty "platform" "x" = .ok false := by
  refine (match_total_amended recEmpty "platform" "x"
    ⟨(fun w hw => nomatch hw), (fun w hw => nomatch hw), (fun w hw => nomatch hw)⟩
    (by decide) (by decide)).2 (by decide) (.vList []) rfl ?_
  intro s h
  exact Value.noConfusion h

/-- CLAIM C6 (counterexample): looking up the derived `instance_placement`
field on a record whose `Placement` field is absent raises TypeError
(`[]['AvailabilityZone']`), so `__getitem__` is not total as claimed. -/
theorem getitem_placement_raises_counterexample :
    getItem recEmpty "instance_placement" = .error .typeError := rfl

/-- CLAIM C6 (amended): on a record with a well-formed tag collection,
`__getitem__` is total for every field name except `instance_placement`:
it returns the raw field value for a non-derived field (the empty list
when the field is missing) and never raises. -/
theorem getitem_total_amended (e : Ec2Instance) (item : String)
    (ht : ListFieldWF e "Tags" TagWF) (hp : item ≠ "instance_placement") :
    ∃ fv, getItem e item = .ok fv ∧
      (item ≠ "aws_account" → item ≠ "Name" → item ≠ "instance_name" →
        fv = rawGet e.instance_ item ∧
        (e.instance_.lookup item = none → fv = .vList [])) := by
  obtain ⟨fv, h1, h2⟩ := getItem_ok item ht hp
  refine ⟨fv, h1, fun ha hb hc => ⟨h2 ha hb hc, fun hnone => ?_⟩⟩
  rw [h2 ha hb hc]
  unfold rawGet
  rw [hnone]

theorem getitem_total_amended_witness :
    getItem recEmpty "Foo" = .ok (.vList []) := by
  obtain ⟨fv, h1, h2⟩ := getitem_total_amended recEmpty "Foo"
    (fun w hw => nomatch hw) (by decide)
  rw [h1, (h2 (by decide) (by decide) (by decide)).1]
  rfl
